import Mathlib

/-!
Shallow embedding of the moneytech/cvmfs pipeline core.

Part 1 embeds the Riak spooler of src/cvmfs/upload_riak.h: the job data model
(struct upload_parameters with its constructors, taken from the initializer
lists in the header), the round-robin upstream URL selection, the upload
worker including vector-clock reads and quorum writes, the compression worker
and the orchestrator error accounting.  The header only declares the method
bodies; where a body is not part of the repository sources the definition is
modelled from the specification and its doc comment says so.

Part 2 embeds the ingestion item allocator of
src/cvmfs/ingestion/item_mem.cc / item_mem.h.  The MallocArena class is an
external collaborator (its sources are not part of this repository); an arena
is abstracted by its number of live blocks, and the outcome of an arena-level
allocation attempt is a parameter of the step.
-/

/-- SpoolerResult base of upload_parameters (base class declared in upload.h,
which is not part of the repository sources; the field list follows the
specification, section 3: return code, local path, optional content hash).
The content hash is modelled by its digest string, empty when unset. -/
structure SpoolerResult where
  return_code : Int
  local_path : String
  content_hash : String
deriving DecidableEq, Repr

/-- JobType of upload_parameters (upload_riak.h lines 94-98). -/
inductive JobType where
  | kPlainUpload
  | kCompressedUpload
  | kEmpty
deriving DecidableEq, Repr

/-- upload_parameters (upload_riak.h lines 76-199), flattened over its
SpoolerResult base. -/
structure upload_parameters extends SpoolerResult where
  type : JobType
  upload_source_path : String
  remote_path : String
  remote_dir : String
  file_suffix : String
  move : Bool
deriving DecidableEq, Repr

/-- Plain-upload constructor (upload_riak.h lines 112-119):
SpoolerResult(0, local_path), type kPlainUpload, source path local_path,
the given remote_path and move flag. -/
def upload_parameters.plain (local_path remote_path : String) (move : Bool) :
    upload_parameters :=
  { return_code := 0, local_path := local_path, content_hash := "",
    type := JobType.kPlainUpload, upload_source_path := local_path,
    remote_path := remote_path, remote_dir := "", file_suffix := "",
    move := move }

/-- Error constructor (upload_riak.h lines 130-134):
SpoolerResult(return_code, local_path), type kEmpty, move false. -/
def upload_parameters.error (return_code : Int) (local_path : String) :
    upload_parameters :=
  { return_code := return_code, local_path := local_path, content_hash := "",
    type := JobType.kEmpty, upload_source_path := "", remote_path := "",
    remote_dir := "", file_suffix := "", move := false }

/-- Compressed-upload constructor (upload_riak.h lines 159-171):
SpoolerResult(return_code, local_path, content_hash), type kCompressedUpload,
source path compressed_path, the given remote_dir, file_suffix and move. -/
def upload_parameters.compressed (return_code : Int)
    (local_path compressed_path remote_dir content_hash file_suffix : String)
    (move : Bool) : upload_parameters :=
  { return_code := return_code, local_path := local_path,
    content_hash := content_hash, type := JobType.kCompressedUpload,
    upload_source_path := compressed_path, remote_path := "",
    remote_dir := remote_dir, file_suffix := file_suffix, move := move }

/-- Modelled from the spec: the body of upload_parameters::GetRiakKey is only
declared in upload_riak.h (lines 183-191).  Spec section 4.3 step 1: for a
plain upload the key is derived from remote_path; for a compressed upload the
key is derived from content_hash plus suffix.  The derivation is a pure
function of those fields. -/
def upload_parameters.GetRiakKey (p : upload_parameters) : String :=
  match p.type with
  | JobType.kPlainUpload => p.remote_path
  | JobType.kCompressedUpload => p.content_hash ++ p.file_suffix
  | JobType.kEmpty => ""

/-- UploadWorker::worker_context (upload_riak.h lines 276-292): the immutable
upstream URL list and the mutable round-robin cursor. -/
structure worker_context where
  upstream_urls : List String
  next_upstream_url_ : Nat
deriving DecidableEq, Repr

/-- Modelled from the spec: the body of worker_context::AcquireUpstreamUrl is
only declared in upload_riak.h (lines 281-288).  Spec section 4.3 step 2:
under the round-robin lock, read the cursor, select
endpoints[cursor % len(endpoints)], advance the cursor.  The lock is modelled
by the call being an atomic step on the context. -/
def AcquireUpstreamUrl (ctx : worker_context) : String × worker_context :=
  (ctx.upstream_urls.getD (ctx.next_upstream_url_ % ctx.upstream_urls.length) "",
   { ctx with next_upstream_url_ := ctx.next_upstream_url_ + 1 })

/-- The sequence of URLs produced by n consecutive AcquireUpstreamUrl calls,
threading the context through. -/
def acquireSeq : worker_context → Nat → List String
  | _, 0 => []
  | ctx, n + 1 =>
    let r := AcquireUpstreamUrl ctx
    r.1 :: acquireSeq r.2 n

/-- A request URL, split into its key and its query parameters. -/
structure riak_request where
  key : String
  params : List (String × String)
deriving DecidableEq, Repr

/-- Modelled from the spec: the body of UploadWorker::CreateRequestUrl is only
declared in upload_riak.h (lines 332-343).  Spec section 6: for critical
writes the query parameters request write-quorum all and durable-write-quorum
all; for a plain write no quorum parameters are requested (a single-replica
acknowledgement is then sufficient, the backend default). -/
def CreateRequestUrl (key : String) (is_critical : Bool) : riak_request :=
  { key := key,
    params := if is_critical then [("w", "all"), ("dw", "all")] else [] }

/-- Network events issued by the upload worker against the Riak cluster. -/
inductive RiakEvent where
  | get (key : String)
  | put (key : String) (vclock : Option String) (params : List (String × String))
deriving DecidableEq, Repr

/-- Modelled from the spec: the body of UploadWorker::GetVectorClock is only
declared in upload_riak.h (lines 305-316).  It issues a read for the key and
returns the vector clock of an already present key, or nothing when the key
does not exist.  The state of the backend is abstracted by the stored
parameter. -/
def GetVectorClock (key : String) (stored : Option String) :
    List RiakEvent × Option String :=
  ([RiakEvent.get key], stored)

/-- Modelled from the spec: the body of UploadWorker::PushFileToRiak is only
declared in upload_riak.h (lines 318-330).  Spec section 4.3 step 3: a
critical write first issues the vector-clock read and then the write carrying
that vector clock and the all-replica quorum parameters; a plain write issues
the write directly with no quorum parameters and no read-before-write.
Returns the issued events and the return code (0 on success, a positive
diagnostic code otherwise); the transport outcome is abstracted by the
transport_ok parameter. -/
def PushFileToRiak (key : String) (is_critical : Bool)
    (stored_vclock : Option String) (transport_ok : Bool) :
    List RiakEvent × Int :=
  if is_critical then
    let rd := GetVectorClock key stored_vclock
    (rd.1 ++ [RiakEvent.put key rd.2 (CreateRequestUrl key true).params],
     if transport_ok then 0 else 1)
  else
    ([RiakEvent.put key none (CreateRequestUrl key false).params],
     if transport_ok then 0 else 1)

/-- Outcome of one UploadWorker::operator() invocation: either a fatal
violated internal invariant (assertion failure, no events issued), or a
completed job with the issued network events and the returned SpoolerResult. -/
inductive WorkerStep where
  | fatal
  | done (trace : List RiakEvent) (result : SpoolerResult)
deriving DecidableEq, Repr

/-- Modelled from the spec: the body of UploadWorker::operator() is only
declared in upload_riak.h (line 296).  A kEmpty job is an invalid parameter
structure (header line 97: crash) and per spec section 9 must be rejected as a
programmer-error invariant, never reaching the network path.  A valid job has
its key derived by GetRiakKey and is pushed by PushFileToRiak; the result
echoes return code, local path and content hash. -/
def UploadWorkerProcess (job : upload_parameters) (is_critical : Bool)
    (stored_vclock : Option String) (transport_ok : Bool) : WorkerStep :=
  match job.type with
  | JobType.kEmpty => WorkerStep.fatal
  | JobType.kPlainUpload =>
    let r := PushFileToRiak job.GetRiakKey is_critical stored_vclock transport_ok
    WorkerStep.done r.1
      { return_code := r.2, local_path := job.local_path,
        content_hash := job.content_hash }
  | JobType.kCompressedUpload =>
    let r := PushFileToRiak job.GetRiakKey is_critical stored_vclock transport_ok
    WorkerStep.done r.1
      { return_code := r.2, local_path := job.local_path,
        content_hash := job.content_hash }

/-- Input of the compression worker (typedef compression_parameters in
upload_riak.h line 216; the underlying struct lives in upload.h, which is not
part of the repository sources; the field list is modelled from spec
sections 4.2 and 4.4). -/
structure compression_parameters where
  local_path : String
  remote_dir : String
  file_suffix : String
deriving DecidableEq, Repr

/-- Modelled from the spec: the body of CompressionWorker::operator() is only
declared in upload_riak.h (line 228).  Spec section 4.2: the external
compress-and-hash transform is a black box, abstracted by the transform
parameter (the compressed temp file path and the content digest on success,
nothing on failure).  On success the worker emits a compressed-upload job
with return code 0; on failure it emits an error (kEmpty) job carrying a
nonzero diagnostic code and the original local_path. -/
def CompressionWorkerProcess (inp : compression_parameters)
    (transform : Option (String × String)) (err_code : Int) :
    upload_parameters :=
  match transform with
  | some r =>
    upload_parameters.compressed 0 inp.local_path r.1 inp.remote_dir r.2
      inp.file_suffix false
  | none => upload_parameters.error err_code inp.local_path

/-- A batch of independent compression jobs, each with its own transform
outcome, processed by the concurrent workers; per spec section 4.1 each job
maps to exactly one result and a failing job never interrupts its siblings. -/
def processCompressionBatch
    (batch : List (compression_parameters × Option (String × String)))
    (err_code : Int) : List upload_parameters :=
  batch.map (fun x => CompressionWorkerProcess x.1 x.2 err_code)

/-- Orchestrator state of RiakSpooler: the error counter and the queues of
pending jobs plus the results delivered to external listeners. -/
structure SpoolerState where
  errors : Nat
  compression_queue : List compression_parameters
  upload_queue : List upload_parameters
  delivered : List SpoolerResult
deriving DecidableEq, Repr

/-- Modelled from the spec: the body of RiakSpooler::CompressionWorkerCallback
is only declared in upload_riak.h (line 450).  Spec section 4.4: on a
successful compression result the orchestrator repackages it into an upload
job for the UploadStage; on a failed result it forwards the failed JobResult
straight to its external listeners, bypassing UploadStage, and per spec
section 3 the error counter is incremented exactly once for that failed
result. -/
def CompressionWorkerCallback (s : SpoolerState) (data : upload_parameters) :
    SpoolerState :=
  if data.return_code = 0 then
    { s with upload_queue := s.upload_queue ++ [data] }
  else
    { s with errors := s.errors + 1,
             delivered := s.delivered ++ [data.toSpoolerResult] }

/-- Modelled from the spec: the body of RiakSpooler::UploadWorkerCallback is
only declared in upload_riak.h (lines 452-456).  Spec section 4.4: every
upload result is forwarded to external listeners and, if failed, increments
the error counter exactly once. -/
def UploadWorkerCallback (s : SpoolerState) (data : SpoolerResult) :
    SpoolerState :=
  if data.return_code = 0 then
    { s with delivered := s.delivered ++ [data] }
  else
    { s with errors := s.errors + 1, delivered := s.delivered ++ [data] }

/-- RiakSpooler::GetNumberOfErrors (upload_riak.h line 436): reads the
cumulative error counter. -/
def GetNumberOfErrors (s : SpoolerState) : Nat := s.errors

/-- The operations of the orchestrator that touch its state: job submission
(Copy, ProcessChunk) and the two stage callbacks. -/
inductive SpoolerOp where
  | copy (local_path remote_path : String)
  | processChunk (inp : compression_parameters)
  | compressionResult (data : upload_parameters)
  | uploadResult (data : SpoolerResult)
deriving DecidableEq, Repr

/-- Modelled from the spec (section 4.4): Copy submits a plain-upload job to
UploadStage, ProcessChunk submits a compression job to CompressionStage, and
stage results are handled by the two callbacks. -/
def applyOp (s : SpoolerState) : SpoolerOp → SpoolerState
  | SpoolerOp.copy l r =>
    { s with upload_queue := s.upload_queue ++ [upload_parameters.plain l r false] }
  | SpoolerOp.processChunk inp =>
    { s with compression_queue := s.compression_queue ++ [inp] }
  | SpoolerOp.compressionResult data => CompressionWorkerCallback s data
  | SpoolerOp.uploadResult data => UploadWorkerCallback s data

/-- Runs a batch of orchestrator operations in order. -/
def runOps (s : SpoolerState) (ops : List SpoolerOp) : SpoolerState :=
  ops.foldl applyOp s

/-- An operation delivers a failed JobResult (nonzero return code) from one of
the two stages. -/
def isFailedResult : SpoolerOp → Bool
  | SpoolerOp.compressionResult data => data.return_code != 0
  | SpoolerOp.uploadResult data => data.return_code != 0
  | _ => false

/-- kArenaSize (item_mem.h line 31): 128 MB. -/
def kArenaSize : Nat := 128 * 1024 * 1024

/-- The malloc_arenas_ vector of an ItemAllocator (item_mem.h line 34).  Each
MallocArena (an external collaborator, its sources are not part of this
repository) is abstracted by its number of live blocks; MallocArena::IsEmpty
holds when that number is 0. -/
abbrev ItemAllocator.Arenas := List Nat

/-- State after ItemAllocator::ItemAllocator (item_mem.cc lines 36-42): one
fresh arena is installed. -/
def ItemAllocator.initArenas : ItemAllocator.Arenas := [0]

/-- ItemAllocator::Malloc (item_mem.cc lines 54-69): try the last arena
malloc_arenas_[N - 1]; if the arena-level allocation fails (returns NULL,
abstracted by the fits parameter) a fresh arena is appended and serves the
block. -/
def ItemAllocator.Malloc (arenas : ItemAllocator.Arenas) (fits : Bool) :
    ItemAllocator.Arenas :=
  if fits then
    arenas.set (arenas.length - 1) (arenas.getD (arenas.length - 1) 0 + 1)
  else
    arenas ++ [1]

/-- ItemAllocator::Free (item_mem.cc lines 16-33): the owning arena
(MallocArena::GetMallocArena, abstracted by the index i of an arena holding a
live block) frees the block; if more than one arena exists and the arena
became empty it is deleted and erased from the vector.  A call with an
invalid index models no free. -/
def ItemAllocator.Free (arenas : ItemAllocator.Arenas) (i : Nat) :
    ItemAllocator.Arenas :=
  if i < arenas.length ∧ 0 < arenas.getD i 0 then
    if 1 < arenas.length ∧ arenas.getD i 0 - 1 = 0 then
      (arenas.set i (arenas.getD i 0 - 1)).eraseIdx i
    else
      arenas.set i (arenas.getD i 0 - 1)
  else arenas

/-- Arena lists reachable through the ItemAllocator interface: the constructor
state followed by any sequence of Malloc and Free calls. -/
inductive ItemAllocator.Reachable : ItemAllocator.Arenas → Prop where
  | init : ItemAllocator.Reachable ItemAllocator.initArenas
  | malloc (s : ItemAllocator.Arenas) (fits : Bool) :
      ItemAllocator.Reachable s → ItemAllocator.Reachable (ItemAllocator.Malloc s fits)
  | free (s : ItemAllocator.Arenas) (i : Nat) :
      ItemAllocator.Reachable s → ItemAllocator.Reachable (ItemAllocator.Free s i)

/-- Process-wide allocator state: the arena lists of all live ItemAllocator
instances and the static counter total_allocated_ (item_mem.cc line 13). -/
structure MemState where
  allocators : List ItemAllocator.Arenas
  total : Int
deriving DecidableEq, Repr

/-- ItemAllocator::ItemAllocator (item_mem.cc lines 36-42): a new instance
with one arena; total_allocated_ grows by kArenaSize. -/
def ItemAllocator.construct (s : MemState) : MemState :=
  { allocators := s.allocators ++ [ItemAllocator.initArenas],
    total := s.total + kArenaSize }

/-- ItemAllocator::~ItemAllocator (item_mem.cc lines 45-51): every arena of
the destroyed instance is deleted and total_allocated_ shrinks by kArenaSize
per arena. -/
def ItemAllocator.destruct (s : MemState) (i : Nat) : MemState :=
  { allocators := s.allocators.eraseIdx i,
    total := s.total - kArenaSize * ((s.allocators.getD i []).length : Int) }

/-- ItemAllocator::Malloc on instance i: total_allocated_ grows by kArenaSize
exactly when the overflow path appends a fresh arena (item_mem.cc line 63),
i.e. by kArenaSize times the arena-count change of the instance. -/
def ItemAllocator.mallocStep (s : MemState) (i : Nat) (fits : Bool) : MemState :=
  let a := s.allocators.getD i []
  let a2 := ItemAllocator.Malloc a fits
  { allocators := s.allocators.set i a2,
    total := s.total + kArenaSize * ((a2.length : Int) - (a.length : Int)) }

/-- ItemAllocator::Free on instance i: total_allocated_ shrinks by kArenaSize
exactly when an emptied arena is deleted (item_mem.cc line 26), i.e. by
kArenaSize times the arena-count change of the instance. -/
def ItemAllocator.freeStep (s : MemState) (i j : Nat) : MemState :=
  let a := s.allocators.getD i []
  let a2 := ItemAllocator.Free a j
  { allocators := s.allocators.set i a2,
    total := s.total + kArenaSize * ((a2.length : Int) - (a.length : Int)) }

/-- Process states reachable from static initialization (no instances,
total_allocated_ = 0) through construction, destruction, Malloc and Free on
live instances. -/
inductive MemReachable : MemState → Prop where
  | init : MemReachable { allocators := [], total := 0 }
  | construct (s : MemState) :
      MemReachable s → MemReachable (ItemAllocator.construct s)
  | destruct (s : MemState) (i : Nat) (hi : i < s.allocators.length) :
      MemReachable s → MemReachable (ItemAllocator.destruct s i)
  | malloc (s : MemState) (i : Nat) (fits : Bool) (hi : i < s.allocators.length) :
      MemReachable s → MemReachable (ItemAllocator.mallocStep s i fits)
  | free (s : MemState) (i j : Nat) (hi : i < s.allocators.length) :
      MemReachable s → MemReachable (ItemAllocator.freeStep s i j)

/-- ItemAllocator::total_allocated (item_mem.h line 28): reads the static
counter. -/
def total_allocated (s : MemState) : Int := s.total

/-- The number of currently live MallocArena objects across all ItemAllocator
instances. -/
def liveArenas (s : MemState) : Nat := (s.allocators.map List.length).sum

/-- Claim C1: Riak key derivation is a pure deterministic function of the job
payload: two jobs with identical content_hash and file_suffix in the
compressed case, or identical remote_path in the plain case, yield the
identical key string on every invocation, so re-submitting the same logical
input overwrites rather than duplicates. -/
theorem riak_key_deterministic (p q : upload_parameters)
    (h : (p.type = JobType.kCompressedUpload ∧ q.type = JobType.kCompressedUpload ∧
          p.content_hash = q.content_hash ∧ p.file_suffix = q.file_suffix) ∨
         (p.type = JobType.kPlainUpload ∧ q.type = JobType.kPlainUpload ∧
          p.remote_path = q.remote_path)) :
    p.GetRiakKey = q.GetRiakKey := by
  rcases h with ⟨hp, hq, h1, h2⟩ | ⟨hp, hq, h1⟩
  · simp [upload_parameters.GetRiakKey, hp, hq, h1, h2]
  · simp [upload_parameters.GetRiakKey, hp, hq, h1]

/-- Witness for claim C1 at two concrete compressed jobs sharing hash and
suffix but differing everywhere else. -/
theorem riak_key_deterministic_witness :
    ((upload_parameters.compressed 0 "a" "t1" "d1" "h77" "C" false).type = JobType.kCompressedUpload ∧
     (upload_parameters.compressed 3 "b" "t2" "d2" "h77" "C" true).type = JobType.kCompressedUpload ∧
     (upload_parameters.compressed 0 "a" "t1" "d1" "h77" "C" false).content_hash =
       (upload_parameters.compressed 3 "b" "t2" "d2" "h77" "C" true).content_hash ∧
     (upload_parameters.compressed 0 "a" "t1" "d1" "h77" "C" false).file_suffix =
       (upload_parameters.compressed 3 "b" "t2" "d2" "h77" "C" true).file_suffix) ∧
    (upload_parameters.compressed 0 "a" "t1" "d1" "h77" "C" false).GetRiakKey =
      (upload_parameters.compressed 3 "b" "t2" "d2" "h77" "C" true).GetRiakKey :=
  ⟨⟨rfl, rfl, rfl, rfl⟩,
   riak_key_deterministic _ _ (Or.inl ⟨rfl, rfl, rfl, rfl⟩)⟩

/-- Claim C3: the error counter is monotonically non-decreasing across every
operation of the orchestrator, and after a batch GetNumberOfErrors equals its
initial value plus the number of JobResults with nonzero return code
delivered by the two stages, each failed result incrementing it exactly
once. -/
theorem error_counter_correct (s : SpoolerState) (ops : List SpoolerOp) :
    (∀ op, GetNumberOfErrors s ≤ GetNumberOfErrors (applyOp s op)) ∧
    GetNumberOfErrors (runOps s ops) =
      GetNumberOfErrors s + ops.countP isFailedResult := by
  constructor
  · intro op
    cases op with
    | copy l r => simp [applyOp, GetNumberOfErrors]
    | processChunk inp => simp [applyOp, GetNumberOfErrors]
    | compressionResult d =>
      by_cases hd : d.return_code = 0 <;>
        simp [applyOp, GetNumberOfErrors, CompressionWorkerCallback, hd]
    | uploadResult d =>
      by_cases hd : d.return_code = 0 <;>
        simp [applyOp, GetNumberOfErrors, UploadWorkerCallback, hd]
  · induction ops generalizing s with
    | nil => simp [runOps]
    | cons op t ih =>
      have hrun : runOps s (op :: t) = runOps (applyOp s op) t := rfl
      have hstep : GetNumberOfErrors (applyOp s op) =
          GetNumberOfErrors s + (if isFailedResult op then 1 else 0) := by
        cases op with
        | copy l r => simp [applyOp, GetNumberOfErrors, isFailedResult]
        | processChunk inp => simp [applyOp, GetNumberOfErrors, isFailedResult]
        | compressionResult d =>
          by_cases hd : d.return_code = 0 <;>
            simp [applyOp, GetNumberOfErrors, isFailedResult,
              CompressionWorkerCallback, hd]
        | uploadResult d =>
          by_cases hd : d.return_code = 0 <;>
            simp [applyOp, GetNumberOfErrors, isFailedResult,
              UploadWorkerCallback, hd]
      rw [hrun, ih, hstep, List.countP_cons]
      cases h : isFailedResult op
      · simp [h]
      · simp [h]
        omega

/-- Claim C6: a job whose variant tag is kEmpty never reaches the network
upload path: the upload worker treats it as a violated internal invariant
(programmer error, fatal), never producing a normal result. -/
theorem upload_worker_rejects_empty (job : upload_parameters) (c : Bool)
    (vc : Option String) (ok : Bool) (h : job.type = JobType.kEmpty) :
    UploadWorkerProcess job c vc ok = WorkerStep.fatal ∧
    ∀ tr res, UploadWorkerProcess job c vc ok ≠ WorkerStep.done tr res := by
  refine ⟨?_, ?_⟩ <;> simp [UploadWorkerProcess, h]

/-- Witness for claim C6 at the error-constructed job. -/
theorem upload_worker_rejects_empty_witness :
    (upload_parameters.error 42 "f").type = JobType.kEmpty ∧
    (UploadWorkerProcess (upload_parameters.error 42 "f") false none true = WorkerStep.fatal ∧
     ∀ tr res,
       UploadWorkerProcess (upload_parameters.error 42 "f") false none true ≠
         WorkerStep.done tr res) :=
  ⟨rfl, upload_worker_rejects_empty (upload_parameters.error 42 "f") false none true rfl⟩

/-- Claim C7: a failed compression (transform error) emits a kEmpty job
wrapped in a JobResult with nonzero return code whose local_path equals the
original input local_path, and the failure does not interrupt sibling jobs:
every job of a batch yields exactly one result, equal to processing it
alone. -/
theorem compression_failure_emits_empty (inp : compression_parameters)
    (err_code : Int) (h : err_code ≠ 0)
    (batch : List (compression_parameters × Option (String × String))) :
    ((CompressionWorkerProcess inp none err_code).type = JobType.kEmpty ∧
     (CompressionWorkerProcess inp none err_code).return_code ≠ 0 ∧
     (CompressionWorkerProcess inp none err_code).local_path = inp.local_path) ∧
    ((processCompressionBatch batch err_code).length = batch.length ∧
     ∀ k : Nat, (processCompressionBatch batch err_code)[k]? =
       (batch[k]?).map (fun x => CompressionWorkerProcess x.1 x.2 err_code)) := by
  refine ⟨⟨rfl, h, rfl⟩, ?_, ?_⟩
  · simp [processCompressionBatch]
  · intro k
    simp [processCompressionBatch]

/-- Witness for claim C7 at a concrete failed transform and a two-job batch
in which the sibling succeeds. -/
theorem compression_failure_emits_empty_witness :
    (1 : Int) ≠ 0 ∧
    (((CompressionWorkerProcess ⟨"src", "dir", "C"⟩ none 1).type = JobType.kEmpty ∧
      (CompressionWorkerProcess ⟨"src", "dir", "C"⟩ none 1).return_code ≠ 0 ∧
      (CompressionWorkerProcess ⟨"src", "dir", "C"⟩ none 1).local_path =
        (⟨"src", "dir", "C"⟩ : compression_parameters).local_path) ∧
     ((processCompressionBatch
         [(⟨"src", "dir", "C"⟩, none), (⟨"other", "dir", ""⟩, some ("t", "h"))] 1).length =
       ([(⟨"src", "dir", "C"⟩, none),
         (⟨"other", "dir", ""⟩, some ("t", "h"))] : List (compression_parameters × Option (String × String))).length ∧
      ∀ k : Nat, (processCompressionBatch
         [(⟨"src", "dir", "C"⟩, none), (⟨"other", "dir", ""⟩, some ("t", "h"))] 1)[k]? =
        ([(⟨"src", "dir", "C"⟩, none),
          (⟨"other", "dir", ""⟩, some ("t", "h"))][k]?).map
          (fun x => CompressionWorkerProcess x.1 x.2 1))) :=
  ⟨by decide,
   compression_failure_emits_empty ⟨"src", "dir", "C"⟩ 1 (by decide)
     [(⟨"src", "dir", "C"⟩, none), (⟨"other", "dir", ""⟩, some ("t", "h"))]⟩

/-- Claim C8: the move flag accepted by the plain-upload constructor has no
runtime effect: two otherwise-identical plain jobs that differ only in move
yield the identical derived key, issued requests and JobResult. -/
theorem move_flag_inert (l r : String) (m1 m2 : Bool) (c : Bool)
    (vc : Option String) (ok : Bool) :
    (upload_parameters.plain l r m1).GetRiakKey =
      (upload_parameters.plain l r m2).GetRiakKey ∧
    UploadWorkerProcess (upload_parameters.plain l r m1) c vc ok =
      UploadWorkerProcess (upload_parameters.plain l r m2) c vc ok :=
  ⟨rfl, rfl⟩

/-- Claim C4: for a critical upload job every write request issued by
PushFileToRiak requests acknowledgement from all replicas for both the write
quorum w and the durable-write quorum dw, such a write is issued before the
job is declared successful, and for a non-critical job no quorum parameters
are requested (a single-replica acknowledgement then suffices). -/
theorem critical_write_quorum (key : String) (vc : Option String) (ok : Bool) :
    (∀ v ps, RiakEvent.put key v ps ∈ (PushFileToRiak key true vc ok).1 →
      ("w", "all") ∈ ps ∧ ("dw", "all") ∈ ps) ∧
    ((PushFileToRiak key true vc ok).2 = 0 →
      RiakEvent.put key vc [("w", "all"), ("dw", "all")] ∈
        (PushFileToRiak key true vc ok).1) ∧
    (∀ v ps, RiakEvent.put key v ps ∈ (PushFileToRiak key false vc ok).1 →
      ps = []) := by
  refine ⟨?_, ?_, ?_⟩
  · intro v ps h
    simp [PushFileToRiak, GetVectorClock, CreateRequestUrl] at h
    simp [h.2]
  · intro _
    simp [PushFileToRiak, GetVectorClock, CreateRequestUrl]
  · intro v ps h
    simp [PushFileToRiak, CreateRequestUrl] at h
    exact h.2

/-- Witness for claim C4 at a concrete key: the critical put carries both
all-replica quorum parameters. -/
theorem critical_write_quorum_witness :
    RiakEvent.put "k" (some "v0") [("w", "all"), ("dw", "all")] ∈
      (PushFileToRiak "k" true (some "v0") true).1 ∧
    (("w", "all") ∈ [("w", "all"), ("dw", "all")] ∧
     ("dw", "all") ∈ [("w", "all"), ("dw", "all")]) :=
  ⟨by simp [PushFileToRiak, GetVectorClock, CreateRequestUrl],
   (critical_write_quorum "k" (some "v0") true).1 (some "v0")
     [("w", "all"), ("dw", "all")]
     (by simp [PushFileToRiak, GetVectorClock, CreateRequestUrl])⟩

/-- Claim C5: for every critical write the vector-clock read of the target
key precedes the corresponding write request: in the event trace of
PushFileToRiak with the critical flag, every put of the key is preceded by a
get of the same key. -/
theorem critical_read_before_write (key : String) (vc : Option String)
    (ok : Bool) :
    ∀ (j : Nat) v ps,
      ((PushFileToRiak key true vc ok).1)[j]? = some (RiakEvent.put key v ps) →
      ∃ i : Nat, i < j ∧
        ((PushFileToRiak key true vc ok).1)[i]? = some (RiakEvent.get key) := by
  intro j v ps h
  match j with
  | 0 => simp [PushFileToRiak, GetVectorClock, CreateRequestUrl] at h
  | 1 => exact ⟨0, by omega, by simp [PushFileToRiak, GetVectorClock]⟩
  | n + 2 => simp [PushFileToRiak, GetVectorClock, CreateRequestUrl] at h

/-- Witness for claim C5: in the concrete critical trace the put sits at
position 1 and the get of the same key at position 0. -/
theorem critical_read_before_write_witness :
    ((PushFileToRiak "k" true (some "v0") true).1)[1]? =
      some (RiakEvent.put "k" (some "v0") [("w", "all"), ("dw", "all")]) ∧
    (∃ i : Nat, i < 1 ∧
      ((PushFileToRiak "k" true (some "v0") true).1)[i]? =
        some (RiakEvent.get "k")) :=
  ⟨by simp [PushFileToRiak, GetVectorClock, CreateRequestUrl],
   critical_read_before_write "k" (some "v0") true 1 (some "v0")
     [("w", "all"), ("dw", "all")]
     (by simp [PushFileToRiak, GetVectorClock, CreateRequestUrl])⟩

/-- Claim C9: every arena list reachable through the ItemAllocator interface
is non-empty: the constructor installs one arena, Malloc only appends, and
Free deletes an emptied arena only when more than one arena exists; hence the
access to the last arena malloc_arenas_[N - 1] in Malloc is in bounds. -/
theorem itemalloc_arenas_nonempty (s : ItemAllocator.Arenas)
    (h : ItemAllocator.Reachable s) :
    0 < s.length ∧ s.length - 1 < s.length := by
  have key : 0 < s.length := by
    induction h with
    | init => simp [ItemAllocator.initArenas]
    | malloc t fits ht ih =>
      unfold ItemAllocator.Malloc
      split
      · simpa using ih
      · simp
    | free t i ht ih =>
      unfold ItemAllocator.Free
      split
      · rename_i hvalid
        split
        · rename_i hdel
          rw [List.length_eraseIdx]
          simp only [List.length_set]
          split
          · omega
          · omega
        · simpa using ih
      · exact ih
  exact ⟨key, by omega⟩

/-- Witness for claim C9 at a two-step reachable state: a fresh allocator
whose Malloc overflowed into a second arena, followed by a Free. -/
theorem itemalloc_arenas_nonempty_witness :
    ItemAllocator.Reachable
      (ItemAllocator.Free (ItemAllocator.Malloc ItemAllocator.initArenas false) 0) ∧
    (0 < (ItemAllocator.Free (ItemAllocator.Malloc ItemAllocator.initArenas false) 0).length ∧
     (ItemAllocator.Free (ItemAllocator.Malloc ItemAllocator.initArenas false) 0).length - 1 <
       (ItemAllocator.Free (ItemAllocator.Malloc ItemAllocator.initArenas false) 0).length) := by
  have hr : ItemAllocator.Reachable
      (ItemAllocator.Free (ItemAllocator.Malloc ItemAllocator.initArenas false) 0) :=
    ItemAllocator.Reachable.free _ 0
      (ItemAllocator.Reachable.malloc _ false ItemAllocator.Reachable.init)
  exact ⟨hr, itemalloc_arenas_nonempty _ hr⟩

/-- Helper: effect of set on the total arena count of all instances. -/
theorem sum_len_set (L : List (List Nat)) (i : Nat) (x : List Nat)
    (hi : i < L.length) :
    ((L.set i x).map List.length).sum + (L.getD i []).length =
      (L.map List.length).sum + x.length := by
  induction L generalizing i with
  | nil => simp at hi
  | cons a t ih =>
    cases i with
    | zero => simp; omega
    | succ n =>
      simp only [List.set_cons_succ, List.map_cons, List.sum_cons,
        List.getD_cons_succ]
      have := ih n (by simpa using hi)
      omega

/-- Helper: effect of eraseIdx on the total arena count of all instances. -/
theorem sum_len_erase (L : List (List Nat)) (i : Nat) (hi : i < L.length) :
    ((L.eraseIdx i).map List.length).sum + (L.getD i []).length =
      (L.map List.length).sum := by
  induction L generalizing i with
  | nil => simp at hi
  | cons a t ih =>
    cases i with
    | zero => simp; omega
    | succ n =>
      simp only [List.eraseIdx_cons_succ, List.map_cons, List.sum_cons,
        List.getD_cons_succ]
      have := ih n (by simpa using hi)
      omega

/-- Claim C10: in every reachable process state the static counter
total_allocated_ equals kArenaSize times the number of currently live
MallocArena objects across all ItemAllocator instances; consequently it is a
multiple of kArenaSize and never negative. -/
theorem total_allocated_invariant (s : MemState) (h : MemReachable s) :
    total_allocated s = (kArenaSize : Int) * (liveArenas s : Int) ∧
    (kArenaSize : Int) ∣ total_allocated s ∧ 0 ≤ total_allocated s := by
  have key : s.total = (kArenaSize : Int) * ((s.allocators.map List.length).sum : Int) := by
    induction h with
    | init => simp
    | construct t hmem ih =>
      simp only [ItemAllocator.construct, List.map_append, List.sum_append,
        List.map_cons, List.map_nil, List.sum_cons, List.sum_nil,
        ItemAllocator.initArenas, List.length_cons, List.length_nil, add_zero]
      rw [Nat.cast_add, Nat.cast_one]
      linear_combination ih
    | destruct t i hi hmem ih =>
      have hs := sum_len_erase t.allocators i hi
      have hcast : (((t.allocators.eraseIdx i).map List.length).sum : Int) +
          ((t.allocators.getD i []).length : Int) =
          ((t.allocators.map List.length).sum : Int) := by
        exact_mod_cast hs
      simp only [ItemAllocator.destruct]
      linear_combination ih - (kArenaSize : Int) * hcast
    | malloc t i fits hi hmem ih =>
      have hs := sum_len_set t.allocators i
        (ItemAllocator.Malloc (t.allocators.getD i []) fits) hi
      have hcast : (((t.allocators.set i
            (ItemAllocator.Malloc (t.allocators.getD i []) fits)).map List.length).sum : Int) +
          ((t.allocators.getD i []).length : Int) =
          ((t.allocators.map List.length).sum : Int) +
          ((ItemAllocator.Malloc (t.allocators.getD i []) fits).length : Int) := by
        exact_mod_cast hs
      simp only [ItemAllocator.mallocStep]
      linear_combination ih - (kArenaSize : Int) * hcast
    | free t i j hi hmem ih =>
      have hs := sum_len_set t.allocators i
        (ItemAllocator.Free (t.allocators.getD i []) j) hi
      have hcast : (((t.allocators.set i
            (ItemAllocator.Free (t.allocators.getD i []) j)).map List.length).sum : Int) +
          ((t.allocators.getD i []).length : Int) =
          ((t.allocators.map List.length).sum : Int) +
          ((ItemAllocator.Free (t.allocators.getD i []) j).length : Int) := by
        exact_mod_cast hs
      simp only [ItemAllocator.freeStep]
      linear_combination ih - (kArenaSize : Int) * hcast
  refine ⟨key, ⟨(liveArenas s : Int), key⟩, ?_⟩
  rw [total_allocated] at *
  rw [key]
  exact mul_nonneg (Int.natCast_nonneg _) (Int.natCast_nonneg _)

/-- Witness for claim C10 at a reachable state with one instance holding two
arenas after an overflowing Malloc. -/
theorem total_allocated_invariant_witness :
    MemReachable
      (ItemAllocator.mallocStep
        (ItemAllocator.construct { allocators := [], total := 0 }) 0 false) ∧
    (total_allocated
        (ItemAllocator.mallocStep
          (ItemAllocator.construct { allocators := [], total := 0 }) 0 false) =
      (kArenaSize : Int) *
        (liveArenas
          (ItemAllocator.mallocStep
            (ItemAllocator.construct { allocators := [], total := 0 }) 0 false) : Int) ∧
     (kArenaSize : Int) ∣ total_allocated
        (ItemAllocator.mallocStep
          (ItemAllocator.construct { allocators := [], total := 0 }) 0 false) ∧
     0 ≤ total_allocated
        (ItemAllocator.mallocStep
          (ItemAllocator.construct { allocators := [], total := 0 }) 0 false)) := by
  have hi : 0 < (ItemAllocator.construct { allocators := [], total := 0 }).allocators.length := by
    simp [ItemAllocator.construct]
  have hr : MemReachable
      (ItemAllocator.mallocStep
        (ItemAllocator.construct { allocators := [], total := 0 }) 0 false) :=
    MemReachable.malloc _ 0 false hi (MemReachable.construct _ MemReachable.init)
  exact ⟨hr, total_allocated_invariant _ hr⟩

/-- Helper: the i-th of n consecutive AcquireUpstreamUrl calls returns the
endpoint at index (cursor + i) mod K. -/
theorem acquireSeq_getElem (N : Nat) (ctx : worker_context) (i : Nat)
    (h : i < N) :
    (acquireSeq ctx N)[i]? =
      some (ctx.upstream_urls.getD
        ((ctx.next_upstream_url_ + i) % ctx.upstream_urls.length) "") := by
  induction N generalizing ctx i with
  | zero => omega
  | succ n ih =>
    cases i with
    | zero =>
      simp [acquireSeq, AcquireUpstreamUrl]
    | succ k =>
      have hk : k < n := by omega
      simp only [acquireSeq, AcquireUpstreamUrl, List.getElem?_cons_succ]
      rw [ih _ k hk]
      have harith : ctx.next_upstream_url_ + 1 + k =
          ctx.next_upstream_url_ + (k + 1) := by omega
      simp [harith]

/-- Helper: among n consecutive values of (cursor + i) mod K the residue j
occurs floor(n over K) or ceil(n over K) times. -/
theorem round_robin_count (K N c0 j : Nat) (hK : 0 < K) (hj : j < K) :
    ((Finset.range N).filter (fun i => (c0 + i) % K = j)).card = N / K ∨
    ((Finset.range N).filter (fun i => (c0 + i) % K = j)).card =
      (N + K - 1) / K := by
  set v := j + (K - c0 % K) with hv
  have hc : c0 % K < K := Nat.mod_lt _ hK
  obtain ⟨t, ht⟩ : ∃ t, t = K * (c0 / K) := ⟨_, rfl⟩
  have hd : t + c0 % K = c0 := by rw [ht]; exact Nat.div_add_mod c0 K
  have h1 : c0 + v = j + (t + K) := by omega
  have h2 : (c0 + v) % K = j % K := by
    rw [h1, ht]
    have h3 : j + (K * (c0 / K) + K) = j + K * (c0 / K + 1) := by ring
    rw [h3, Nat.add_mul_mod_self_left]
  have hmod : ∀ i : Nat, ((c0 + i) % K = j) ↔ (i ≡ v [MOD K]) := by
    intro i
    constructor
    · intro hij
      have h4 : c0 + i ≡ c0 + v [MOD K] := by
        show (c0 + i) % K = (c0 + v) % K
        rw [hij, h2, Nat.mod_eq_of_lt hj]
      exact Nat.ModEq.add_left_cancel' c0 h4
    · intro hiv
      have h4 : c0 + i ≡ c0 + v [MOD K] := Nat.ModEq.add_left c0 hiv
      have h5 : (c0 + i) % K = (c0 + v) % K := h4
      rw [h5, h2, Nat.mod_eq_of_lt hj]
  have hfilter : (Finset.range N).filter (fun i => (c0 + i) % K = j) =
      (Finset.range N).filter (fun i => i ≡ v [MOD K]) := by
    apply Finset.filter_congr
    intro x _
    exact hmod x
  have hcount : ((Finset.range N).filter (fun i => i ≡ v [MOD K])).card =
      N / K + if v % K < N % K then 1 else 0 := by
    have hc2 := Nat.count_modEq_card N hK v
    rwa [Nat.count_eq_card_filter_range] at hc2
  rw [hfilter, hcount]
  by_cases hlt : v % K < N % K
  · right
    rw [if_pos hlt]
    have hNm : N % K < K := Nat.mod_lt _ hK
    have h0 : 0 < N % K := by omega
    have hdN := Nat.div_add_mod N K
    have hmul : K * (N / K + 1) = K * (N / K) + K := by ring
    have h6 : N + K - 1 = (N % K - 1) + K * (N / K + 1) := by omega
    have hsmall : N % K - 1 < K := by omega
    rw [h6, Nat.add_mul_div_left _ _ hK, Nat.div_eq_of_lt hsmall]
    omega
  · left
    rw [if_neg hlt]
    omega

/-- Claim C2: round-robin endpoint selection: over a list of K endpoints, the
i-th of N consecutive AcquireUpstreamUrl calls starting at cursor c0 returns
endpoints[(c0 + i) mod K], hence each endpoint index is selected
floor(N over K) or ceil(N over K) times, in cyclic order. -/
theorem round_robin_selection (urls : List String) (c0 N : Nat)
    (hK : 0 < urls.length) :
    (∀ i : Nat, i < N →
      (acquireSeq { upstream_urls := urls, next_upstream_url_ := c0 } N)[i]? =
        some (urls.getD ((c0 + i) % urls.length) "")) ∧
    (∀ j : Nat, j < urls.length →
      ((Finset.range N).filter (fun i => (c0 + i) % urls.length = j)).card =
        N / urls.length ∨
      ((Finset.range N).filter (fun i => (c0 + i) % urls.length = j)).card =
        (N + urls.length - 1) / urls.length) := by
  constructor
  · intro i hi
    exact acquireSeq_getElem N _ i hi
  · intro j hj
    exact round_robin_count urls.length N c0 j hK hj

/-- Witness for claim C2 with two endpoints, three calls, cursor 0: the third
call wraps around to the first endpoint and endpoint 0 is selected twice. -/
theorem round_robin_selection_witness :
    0 < (["u0", "u1"] : List String).length ∧
    ((acquireSeq { upstream_urls := ["u0", "u1"], next_upstream_url_ := 0 } 3)[2]? =
      some ((["u0", "u1"] : List String).getD
        ((0 + 2) % (["u0", "u1"] : List String).length) "") ∧
     (((Finset.range 3).filter
         (fun i => (0 + i) % (["u0", "u1"] : List String).length = 0)).card =
        3 / (["u0", "u1"] : List String).length ∨
      ((Finset.range 3).filter
         (fun i => (0 + i) % (["u0", "u1"] : List String).length = 0)).card =
        (3 + (["u0", "u1"] : List String).length - 1) /
          (["u0", "u1"] : List String).length)) :=
  ⟨by decide,
   (round_robin_selection ["u0", "u1"] 0 3 (by decide)).1 2 (by decide),
   (round_robin_selection ["u0", "u1"] 0 3 (by decide)).2 0 (by decide)⟩
